import Mathlib

/-!
Verification development for the FLAME Image Labeling Tool
(`src/Labeling/FLAME Image Labeling Tool.py`): the windowed media cache and
prefetch engine — task queue, worker pool, circular-distance eviction,
navigation, and save/load-state parsing.

The Python source is shallowly embedded below.  Strings are modelled as
`List Char` (`PyStr`); Python's `%` on possibly negative values is `Int.emod`
(identical to Python's floor-mod for a positive modulus); image payloads and
tiff statistics are type parameters `α`/`γ` since decoding itself is an
external capability (cv2 / PIL).  A decoder is modelled as a function into
`Option`: `none` models the decode raising an exception.  Python's `int(...)`
is modelled for ASCII decimal literals with an optional sign (`pyInt?`);
`none` models `int` raising `ValueError` (and a `None` dialog result models
`TypeError`).
-/

namespace Flame

/-- Python strings, modelled character by character. -/
abbrev PyStr := List Char

/-- The three media kinds of a load task: `"rgb"`, `"ir"`, `"tiff"`. -/
inductive Kind
  | rgb
  | ir
  | tiff
deriving DecidableEq, Repr

/-- A load task `(index, path, rgb_ir)` placed on the queue `q`. -/
structure LoadTask where
  index : Nat
  path : PyStr
  kind : Kind
deriving DecidableEq, Repr

/-- A queue entry: `some task`, or `none` for the `(None, None, None)`
termination sentinel consumed in `img_loader`. -/
abbrev WorkItem := Option LoadTask

/-- A label entry of the `labels` list: `"Fire"`, `"No Fire"`, or Python
`None` (unlabeled). -/
inductive Label
  | fire
  | noFire
  | unlabeled
deriving DecidableEq, Repr

/-- Python `a % n` for a natural modulus (floor mod, i.e. `Int.emod`). -/
def pyMod (a : Int) (n : Nat) : Int := a % (n : Int)

/-- `min((a - b) % N, (b - a) % N)`: the circular distance used by every
window-membership and eviction test in the source. -/
def circDist (n : Nat) (a b : Int) : Int :=
  min (pyMod (a - b) n) (pyMod (b - a) n)

/-- `BUFF_RADIUS = 7`, the prefetch radius constant of the source.  The
functions below take the radius as a parameter `R`; this is its source
value. -/
def BUFF_RADIUS : Nat := 7

/-- The fixed session data: the selected `folder_path` and the
`rgb_image_files` list (the source indexes all three kinds by the rgb file
list). -/
structure Config where
  folder : PyStr
  files : List PyStr
deriving DecidableEq

/-- `len(rgb_image_files)`: the sequence length `N`. -/
def Config.n (cfg : Config) : Nat := cfg.files.length

/-- `rgb_image_files[id]` (out-of-range reads never occur on the paths the
source takes; modelled as the empty string). -/
def fileAt (cfg : Config) (id : Nat) : PyStr := cfg.files.getD id []

/-- Path of kind `"rgb"`: `f'{folder_path}/RGB/Corrected FOV/{file}'`. -/
def rgbPath (cfg : Config) (id : Nat) : PyStr :=
  cfg.folder ++ ("/RGB/Corrected FOV/".data) ++ fileAt cfg id

/-- Path of kind `"ir"`: `f'{folder_path}/Thermal/JPG/{file}'`. -/
def irPath (cfg : Config) (id : Nat) : PyStr :=
  cfg.folder ++ ("/Thermal/JPG/".data) ++ fileAt cfg id

/-- `name.split(".")[0]`: the prefix before the first dot. -/
def stem (s : PyStr) : PyStr := s.takeWhile (fun c => c ≠ '.')

/-- Path of kind `"tiff"`:
`f'{folder_path}/Thermal/Celsius TIFF/{file.split(".")[0]}.TIFF'`. -/
def tiffPath (cfg : Config) (id : Nat) : PyStr :=
  cfg.folder ++ ("/Thermal/Celsius TIFF/".data) ++ stem (fileAt cfg id) ++ (".TIFF".data)

/-- Mutable state of `main`: the viewing `index`, the three loaded slot
arrays, the `labels` vector, and the three worker result stacks
`b_rgb`, `b_ir`, `b_tiff`. -/
structure AppState (α γ : Type) where
  index : Int
  loadedRgb : List (Option α)
  loadedIr : List (Option α)
  loadedTiff : List (Option γ)
  labels : List Label
  bRgb : List (Nat × α)
  bIr : List (Nat × α)
  bTiff : List (Nat × γ)
deriving DecidableEq

/-- Value held by cache slot `s` (`none` when empty or out of range). -/
def slotVal {β : Type} (l : List (Option β)) (s : Nat) : Option β :=
  l.getD s none

/-- One eviction scan starting at position `i0`: a populated slot whose
circular distance to `idx` exceeds `R` is set to `None`; empty slots and
in-window slots are left as they are (source lines 500–510, 427–436,
456–466; the source runs it only over the rgb and ir arrays). -/
def evictFrom {β : Type} (n R : Nat) (idx : Int) : Nat → List (Option β) → List (Option β)
  | _, [] => []
  | i0, item :: rest =>
    (match item with
      | none => none
      | some v => if circDist n idx (i0 : Int) > (R : Int) then none else some v)
      :: evictFrom n R idx (i0 + 1) rest

/-- Eviction scan over a whole slot array. -/
def evictPass {β : Type} (n R : Nat) (idx : Int) (l : List (Option β)) : List (Option β) :=
  evictFrom n R idx 0 l

/-- Placing one drained result `(id, payload)` into a slot array: inside the
window the payload is stored, outside the window the slot is set to `None`
(the `if/else` of the drain loops). -/
def placeResult {β : Type} (n R : Nat) (idx : Int) (l : List (Option β)) (r : Nat × β) :
    List (Option β) :=
  if circDist n idx (r.1 : Int) ≤ (R : Int) then l.set r.1 (some r.2) else l.set r.1 none

/-- Placing a list of drained results in order (a later result for the same
index overwrites an earlier one). -/
def placeAll {β : Type} (n R : Nat) (idx : Int) (l : List (Option β)) (rs : List (Nat × β)) :
    List (Option β) :=
  rs.foldl (placeResult n R idx) l

/-- CPython semantics of `for x in lst: ...; lst.remove(x)`: removing the
current element shifts the iterator past the next one, so elements at the
even positions of the evolving list are processed and the others remain on
the stack for a later tick.  (With duplicate `(id, payload)` tuples
`remove` would drop the first equal occurrence; the positional model and the
value model then coincide up to which equal copy survives.)  Returns
(processed, remaining). -/
def drainSkip {β : Type} : List β → List β × List β
  | [] => ([], [])
  | [a] => ([a], [])
  | a :: b :: rest =>
    let p := drainSkip rest
    (a :: p.1, b :: p.2)

/-- The per-tick cache reconciliation at the bottom of the event loop
(source lines 478–510): drain each result stack into its slot array
(the for/remove loops), then run the eviction scan — over the rgb and ir
arrays only; `loaded_tiff_vals` has no eviction scan. -/
def reconcileTick {α γ : Type} (cfg : Config) (R : Nat) (st : AppState α γ) : AppState α γ :=
  let n := cfg.n
  let dR := drainSkip st.bRgb
  let dI := drainSkip st.bIr
  let dT := drainSkip st.bTiff
  let rgb1 := placeAll n R st.index st.loadedRgb dR.1
  let ir1 := placeAll n R st.index st.loadedIr dI.1
  let tiff1 := placeAll n R st.index st.loadedTiff dT.1
  { st with
    loadedRgb := evictPass n R st.index rgb1
    loadedIr := evictPass n R st.index ir1
    loadedTiff := tiff1
    bRgb := dR.2
    bIr := dI.2
    bTiff := dT.2 }

/-- The `"Right:39"` arrow handler: `index = (index + 1) % N`, then enqueue
one rgb and one ir task for `(index + BUFF_RADIUS) % N`.  The tiff enqueue
is commented out in the source.  Returns the new state and the enqueued
tasks in order. -/
def stepRight {α γ : Type} (cfg : Config) (R : Nat) (st : AppState α γ) :
    AppState α γ × List LoadTask :=
  let n := cfg.n
  let idx := pyMod (st.index + 1) n
  let t := (pyMod (idx + (R : Int)) n).toNat
  ({ st with index := idx },
   [⟨t, rgbPath cfg t, Kind.rgb⟩, ⟨t, irPath cfg t, Kind.ir⟩])

/-- The `"Left:37"` arrow handler: `index = (index - 1) % N`, then enqueue
one rgb and one ir task for `(index - BUFF_RADIUS) % N`.  The tiff enqueue
is commented out in the source. -/
def stepLeft {α γ : Type} (cfg : Config) (R : Nat) (st : AppState α γ) :
    AppState α γ × List LoadTask :=
  let n := cfg.n
  let idx := pyMod (st.index - 1) n
  let t := (pyMod (idx - (R : Int)) n).toNat
  ({ st with index := idx },
   [⟨t, rgbPath cfg t, Kind.rgb⟩, ⟨t, irPath cfg t, Kind.ir⟩])

/-- The full-window enqueue loop `for i in range(-BUFF_RADIUS, BUFF_RADIUS + 1)`
around center `idx`: rgb and ir tasks always, plus a tiff task when
`withTiff` (the Go To and Load State handlers enqueue all three; the initial
preload has the tiff line commented out). -/
def windowTasks (cfg : Config) (R : Nat) (idx : Int) (withTiff : Bool) : List LoadTask :=
  (List.range (2 * R + 1)).flatMap (fun j =>
    let id := (pyMod (idx + (j : Int) - (R : Int)) cfg.n).toNat
    [⟨id, rgbPath cfg id, Kind.rgb⟩, ⟨id, irPath cfg id, Kind.ir⟩]
      ++ (if withTiff then [⟨id, tiffPath cfg id, Kind.tiff⟩] else []))

/-- The `starting_images` preload list (source lines 168–172): a full window
around `index`, rgb and ir only — the tiff line is commented out. -/
def initialTasks (cfg : Config) (R : Nat) (idx : Int) : List LoadTask :=
  windowTasks cfg R idx false

/-- Character of decimal digit `d`. -/
def digitCh (d : Nat) : Char := Char.ofNat (48 + d)

/-- Python `str(n)` for a natural number: its decimal digits. -/
def natChars (n : Nat) : PyStr :=
  if n = 0 then ['0'] else ((Nat.digits 10 n).map digitCh).reverse

/-- Python `str(i)` for an integer. -/
def intChars (i : Int) : PyStr :=
  if i < 0 then '-' :: natChars (-i).toNat else natChars i.toNat

/-- Numeric value of a big-endian digit string. -/
def decVal (ds : PyStr) : Nat :=
  ds.foldl (fun a c => 10 * a + (c.toNat - 48)) 0

/-- Whitespace for Python `int()`'s surrounding-whitespace tolerance. -/
def isWsC (c : Char) : Bool := c = ' ' || c = '\n' || c = '\t' || c = '\r'

/-- Strip leading and trailing whitespace. -/
def stripWs (s : PyStr) : PyStr :=
  ((s.dropWhile isWsC).reverse.dropWhile isWsC).reverse

/-- Python `int(s)` on an ASCII decimal literal with optional sign;
`none` models `int` raising `ValueError`. -/
def pyInt? (s : PyStr) : Option Int :=
  let t := stripWs s
  if t = [] then none
  else if t.headD ' ' = '-' then
    if t.tail ≠ [] ∧ t.tail.all Char.isDigit then some (-(decVal t.tail : Int)) else none
  else if t.headD ' ' = '+' then
    if t.tail ≠ [] ∧ t.tail.all Char.isDigit then some ((decVal t.tail : Int)) else none
  else if t.all Char.isDigit then some ((decVal t : Int)) else none

/-- The single-quote character (ASCII 39) appearing around Python string
reprs and stripped by the load-state surgery. -/
def quoteCh : Char := Char.ofNat 39

/-- Python `repr` of one `labels` entry as it appears inside `str(labels)`:
quoted `Fire`, quoted `No Fire`, or bare `None`. -/
def labelTok : Label → PyStr
  | Label.fire => quoteCh :: "Fire".data ++ [quoteCh]
  | Label.noFire => quoteCh :: "No Fire".data ++ [quoteCh]
  | Label.unlabeled => "None".data

/-- Python `sep.join(xs)`. -/
def joinSep (sep : PyStr) : List PyStr → PyStr
  | [] => []
  | [x] => x
  | x :: y :: rest => x ++ sep ++ joinSep sep (y :: rest)

/-- Python `str(labels)`: `[` + `, `-joined reprs + `]`. -/
def pyReprLabels (ls : List Label) : PyStr :=
  '[' :: (joinSep (", ".data) (ls.map labelTok)) ++ [']']

/-- The `-SAVE_STATE-` handler's three written lines (each `write` ends in
`\n`): `len(rgb_image_files)`, `index`, `str(labels)`. -/
def saveState {α γ : Type} (cfg : Config) (st : AppState α γ) : List PyStr :=
  [intChars (cfg.n : Int) ++ ['\n'],
   intChars st.index ++ ['\n'],
   pyReprLabels st.labels ++ ['\n']]

/-- `state.readline()` for line `i`; an exhausted file yields `''`. -/
def readLine (lines : List PyStr) (i : Nat) : PyStr := lines.getD i []

/-- The label-line text surgery of the `-LOAD_STATE-` handler:
`replace(" ", "")` (which also eats the space of `No Fire`),
`replace("'", "")`, then the slice `[1:-2]` removing the brackets and the
newline. -/
def pySurgery (s : PyStr) : PyStr :=
  let t := (s.filter (fun c => c ≠ ' ')).filter (fun c => c ≠ quoteCh)
  ((t.drop 1).dropLast).dropLast

/-- Python `s.split(',')`. -/
def splitComma : PyStr → List PyStr
  | [] => [[]]
  | c :: rest =>
    if c = ',' then [] :: splitComma rest
    else
      match splitComma rest with
      | [] => [[c]]
      | s :: ss => (c :: s) :: ss

/-- The `match entry` of the label parse loop; `none` is the `case _` arm,
whose `continue` skips the entry without appending. -/
def matchEntry (e : PyStr) : Option Label :=
  if e = "No Fire".data then some Label.noFire
  else if e = "NoFire".data then some Label.noFire
  else if e = "Fire".data then some Label.fire
  else if e = "None".data then some Label.unlabeled
  else none

/-- The `parsed_labels` accumulation loop: known entries are appended,
unknown entries are skipped. -/
def parseEntries : List PyStr → List Label
  | [] => []
  | e :: rest =>
    match matchEntry e with
    | some l => l :: parseEntries rest
    | none => parseEntries rest

/-- Outcome of an event handler: `ok`, an uncaught Python exception (`exn`),
the Go To range-error popup, the state-file sequence-length-mismatch popup,
or the label-length-mismatch popup. -/
inductive Outcome
  | ok
  | exn
  | rangeError
  | mismatch
  | badLength
deriving DecidableEq, Repr

/-- Result of an event handler: the state it leaves behind, the tasks it
enqueued on `q`, and its outcome. -/
structure HandlerOut (α γ : Type) where
  st : AppState α γ
  enq : List LoadTask
  outcome : Outcome
deriving DecidableEq

/-- The `-GOTO-` handler (source lines 446–474).  `input = none` models a
cancelled dialog (`int(None)` raises `TypeError`); an unparsable string makes
`int(new_index)` raise `ValueError` — both before the range test.  An
out-of-range integer gets the error popup and leaves state unchanged.  A
valid target sets `index = int(new_index) - 1`, immediately evicts
out-of-window rgb and ir slots (`loaded_tiff_vals` has no eviction loop
there), and enqueues a full window of rgb, ir and tiff tasks. -/
def gotoHandler {α γ : Type} (cfg : Config) (R : Nat) (st : AppState α γ)
    (input : Option PyStr) : HandlerOut α γ :=
  match input with
  | none => ⟨st, [], Outcome.exn⟩
  | some s =>
    match pyInt? s with
    | none => ⟨st, [], Outcome.exn⟩
    | some t =>
      if 0 < t ∧ t < (cfg.n : Int) + 1 then
        let idx : Int := t - 1
        ⟨{ st with
            index := idx
            loadedRgb := evictPass cfg.n R idx st.loadedRgb
            loadedIr := evictPass cfg.n R idx st.loadedIr },
         windowTasks cfg R idx true, Outcome.ok⟩
      else ⟨st, [], Outcome.rangeError⟩

/-- The `-LOAD_STATE-` file-reading part of the handler (source lines
389–444).  Order is the source's: parse line 0 as `int` (raise → `exn`);
compare with `len(rgb_image_files)` (mismatch popup, nothing mutated);
parse line 1 as `int` and assign it to `index` (raise → `exn` before the
assignment); text-surgery-parse the label line; a parsed-length mismatch
pops the error and abandons the handler with `index` already overwritten;
otherwise the labels are replaced, out-of-window rgb and ir slots evicted,
and a full rgb/ir/tiff window enqueued. -/
def loadStateHandler {α γ : Type} (cfg : Config) (R : Nat) (st : AppState α γ)
    (lines : List PyStr) : HandlerOut α γ :=
  match pyInt? (readLine lines 0) with
  | none => ⟨st, [], Outcome.exn⟩
  | some m =>
    if m = (cfg.n : Int) then
      match pyInt? (readLine lines 1) with
      | none => ⟨st, [], Outcome.exn⟩
      | some j =>
        let parsed := parseEntries (splitComma (pySurgery (readLine lines 2)))
        if parsed.length = st.labels.length then
          ⟨{ st with
              index := j
              labels := parsed
              loadedRgb := evictPass cfg.n R j st.loadedRgb
              loadedIr := evictPass cfg.n R j st.loadedIr },
           windowTasks cfg R j true, Outcome.ok⟩
        else ⟨{ st with index := j }, [], Outcome.badLength⟩
    else ⟨st, [], Outcome.mismatch⟩

/-- The three worker output stacks `b_rgb`, `b_ir`, `b_tiff`. -/
structure Stacks (α γ : Type) where
  bRgb : List (Nat × α)
  bIr : List (Nat × α)
  bTiff : List (Nat × γ)
deriving DecidableEq

/-- One task body of `img_loader`: decode by kind and append to the matching
stack.  `dI`/`dT` are the external decoders (`load_image`,
`get_temp_stats_from_tiff`); a `none` decode models the decode raising
(e.g. `cv2.imread` returning `None` so `cv2.resize` throws, or `Image.open`
failing) — `img_loader` has no handler for it, so the whole push fails. -/
def pushResult {α γ : Type} (dI : PyStr → Option α) (dT : PyStr → Option γ)
    (s : Stacks α γ) (t : LoadTask) : Option (Stacks α γ) :=
  match t.kind with
  | Kind.rgb => (dI t.path).map (fun img => { s with bRgb := s.bRgb ++ [(t.index, img)] })
  | Kind.ir => (dI t.path).map (fun img => { s with bIr := s.bIr ++ [(t.index, img)] })
  | Kind.tiff => (dT t.path).map (fun v => { s with bTiff := s.bTiff ++ [(t.index, v)] })

/-- Whether the decode of a task succeeds (independent of stack contents). -/
def decodes {α γ : Type} (dI : PyStr → Option α) (dT : PyStr → Option γ)
    (t : LoadTask) : Bool :=
  match t.kind with
  | Kind.rgb => (dI t.path).isSome
  | Kind.ir => (dI t.path).isSome
  | Kind.tiff => (dT t.path).isSome

/-- Fate of one `img_loader` worker given the sequence of queue items it
dequeues: `finished` after consuming a sentinel, `blocked` on `q.get()` when
the queue runs dry, or `crashed` when a decode raises — the exception
propagates out of `img_loader`, the thread dies, and `q.task_done()` is not
called for that task.  `done` counts `task_done` calls. -/
inductive RunOutcome (α γ : Type)
  | finished (s : Stacks α γ) (done : Nat)
  | blocked (s : Stacks α γ) (done : Nat)
  | crashed (s : Stacks α γ) (done : Nat) (t : LoadTask) (rest : List WorkItem)
deriving DecidableEq

/-- The `img_loader` loop of one worker over a dequeue sequence. -/
def imgLoaderRun {α γ : Type} (dI : PyStr → Option α) (dT : PyStr → Option γ) :
    List WorkItem → Stacks α γ → Nat → RunOutcome α γ
  | [], s, d => RunOutcome.blocked s d
  | none :: _, s, d => RunOutcome.finished s d
  | some t :: rest, s, d =>
    match pushResult dI dT s t with
    | some s2 => imgLoaderRun dI dT rest s2 (d + 1)
    | none => RunOutcome.crashed s d t rest

/-- Deterministic drain of the shared FIFO queue by a pool of `alive`
workers: the queue hands items out in order no matter which worker takes
each one; a sentinel terminates exactly the worker that dequeues it, a
failing decode kills its worker without consuming a sentinel, and remaining
workers block once the queue is empty.  Returns (stacks, workers still
alive, items left undequeued — nonempty only when all workers are gone). -/
def poolDrain {α γ : Type} (dI : PyStr → Option α) (dT : PyStr → Option γ) :
    List WorkItem → Nat → Stacks α γ → Stacks α γ × Nat × List WorkItem
  | [], alive, s => (s, alive, [])
  | item :: rest, 0, s => (s, 0, item :: rest)
  | none :: rest, (a + 1), s => poolDrain dI dT rest a s
  | some t :: rest, (a + 1), s =>
    match pushResult dI dT s t with
    | some s2 => poolDrain dI dT rest (a + 1) s2
    | none => poolDrain dI dT rest a s

/-- `stop_workers(threads)`: one `(None, None, None)` sentinel is `q.put`
for each of the `k` workers, appended after whatever is already pending. -/
def stopQueue (pending : List WorkItem) (k : Nat) : List WorkItem :=
  pending ++ List.replicate k none

/-- Concrete session with `n` identically named files, for witnesses. -/
def cfgN (n : Nat) : Config :=
  ⟨"/d".data, List.replicate n ("a.JPG".data)⟩

/-- `n` empty cache slots (payload type `Nat`). -/
def emptySlots (n : Nat) : List (Option Nat) :=
  List.replicate n none

/-- Slot array holding `some s` exactly at the positions `s` within circular
distance `R` of `idx`, for concrete scenarios. -/
def windowSlots (n R : Nat) (idx : Int) : List (Option Nat) :=
  (List.range n).map (fun (s : Nat) =>
    if circDist n idx (s : Int) ≤ (R : Int) then some s else none)

/-- Concrete state (N = 20): index 8, all slots empty except a stale tiff
payload cached at slot 19, no pending results. -/
def stTiffStale : AppState Nat Nat :=
  { index := 8
    loadedRgb := emptySlots 20
    loadedIr := emptySlots 20
    loadedTiff := (emptySlots 20).set 19 (some 5)
    labels := List.replicate 20 Label.unlabeled
    bRgb := []
    bIr := []
    bTiff := [] }

/-- Concrete state for the spec's N = 20, R = 7 scenario: index 0 with the
full rgb/ir window around 0 populated, no pending results. -/
def stScene : AppState Nat Nat :=
  { index := 0
    loadedRgb := windowSlots 20 7 0
    loadedIr := windowSlots 20 7 0
    loadedTiff := emptySlots 20
    labels := List.replicate 20 Label.unlabeled
    bRgb := []
    bIr := []
    bTiff := [] }

/-- Concrete state (N = 20): index 19 with a tiff payload cached at slot 19
(inside the current window), used to exercise Go To's eviction. -/
def stGotoTiff : AppState Nat Nat :=
  { index := 19
    loadedRgb := emptySlots 20
    loadedIr := emptySlots 20
    loadedTiff := (emptySlots 20).set 19 (some 5)
    labels := List.replicate 20 Label.unlabeled
    bRgb := []
    bIr := []
    bTiff := [] }

/-- Concrete state (N = 2) with two labeled entries, for the load-state
counterexample. -/
def stTwo : AppState Nat Nat :=
  { index := 0
    loadedRgb := emptySlots 2
    loadedIr := emptySlots 2
    loadedTiff := emptySlots 2
    labels := [Label.fire, Label.fire]
    bRgb := []
    bIr := []
    bTiff := [] }

/-- A state file whose label line holds one label although the session has
two files: first two lines parse, the length check fails. -/
def linesShort : List PyStr :=
  ["2\n".data, "1\n".data, pyReprLabels [Label.fire] ++ ['\n']]

/-- Three concrete decodable tasks, for the worker-pool witness. -/
def tasks3 : List LoadTask :=
  [⟨0, rgbPath (cfgN 20) 0, Kind.rgb⟩,
   ⟨1, irPath (cfgN 20) 1, Kind.ir⟩,
   ⟨2, tiffPath (cfgN 20) 2, Kind.tiff⟩]

/-- The label tokens as they look after the load-state space/quote
stripping: `Fire`, `NoFire` (the space of `No Fire` is gone), `None`. -/
def labelTokS : Label → PyStr
  | Label.fire => "Fire".data
  | Label.noFire => "NoFire".data
  | Label.unlabeled => "None".data

/-- The state reached in the concrete N = 20 scenario after `Step(+1)` from
`stScene`. -/
def stSceneStepped : AppState Nat Nat :=
  (stepRight (cfgN 20) 7 stScene).1

/-- `stSceneStepped` once the workers have pushed the (single) results of the
step's two tasks for index 8 onto the stacks. -/
def stSceneArrived : AppState Nat Nat :=
  { stSceneStepped with bRgb := [(8, 100)], bIr := [(8, 200)] }

/- ------------------------------------------------------------------ -/
/- Helper lemmas -/

theorem pyMod_add_shift (a b : Int) (n : Nat) :
    pyMod (pyMod a n + b) n = pyMod (a + b) n := by
  simp [pyMod, Int.emod_add_emod]

theorem pyMod_sub_shift (a b : Int) (n : Nat) :
    pyMod (pyMod a n - b) n = pyMod (a - b) n := by
  simp [pyMod, sub_eq_add_neg, Int.emod_add_emod]

theorem slotVal_evictFrom {β : Type} (n R : Nat) (idx : Int) :
    ∀ (l : List (Option β)) (i0 s : Nat),
      slotVal (evictFrom n R idx i0 l) s =
        match slotVal l s with
        | none => none
        | some v =>
          if circDist n idx ((i0 + s : Nat) : Int) > (R : Int) then none else some v := by
  intro l
  induction l with
  | nil => intro i0 s; simp [evictFrom, slotVal]
  | cons item rest ih =>
    intro i0 s
    cases s with
    | zero => cases item <;> simp [evictFrom, slotVal]
    | succ s =>
      have h := ih (i0 + 1) s
      simp only [evictFrom, slotVal, List.getD_cons_succ] at h ⊢
      rw [h]
      have : i0 + 1 + s = i0 + (s + 1) := by omega
      rw [this]

theorem slotVal_evictPass {β : Type} (n R : Nat) (idx : Int) (l : List (Option β)) (s : Nat) :
    slotVal (evictPass n R idx l) s =
      match slotVal l s with
      | none => none
      | some v => if circDist n idx (s : Int) > (R : Int) then none else some v := by
  have h := slotVal_evictFrom n R idx l 0 s
  simpa [evictPass] using h

theorem slotVal_evictPass_of_far {β : Type} (n R : Nat) (idx : Int) (l : List (Option β))
    (s : Nat) (h : circDist n idx (s : Int) > (R : Int)) :
    slotVal (evictPass n R idx l) s = none := by
  rw [slotVal_evictPass]
  cases slotVal l s <;> simp [h]

theorem slotVal_evictPass_near_of_ne_none {β : Type} (n R : Nat) (idx : Int)
    (l : List (Option β)) (s : Nat) (h : slotVal (evictPass n R idx l) s ≠ none) :
    circDist n idx (s : Int) ≤ (R : Int) := by
  by_contra hgt
  exact h (slotVal_evictPass_of_far n R idx l s (lt_of_not_le hgt))

/- ------------------------------------------------------------------ -/
/- Claim theorems -/

/-- C3 (amended): a `+1` step sets the index to `(old + 1) mod N` and
enqueues exactly one visual and one thermal task, both targeting
`(old + R + 1) mod N`; a `-1` step sets the index to `(old - 1) mod N` and
enqueues exactly one visual and one thermal task targeting
`(old - R - 1) mod N`; no scalar (tiff) task and no other task is enqueued
by a step. -/
theorem step_index_and_trailing_edge_tasks {α γ : Type} (cfg : Config) (R : Nat)
    (st : AppState α γ) :
    ((stepRight cfg R st).1.index = pyMod (st.index + 1) cfg.n ∧
     (stepRight cfg R st).2 =
       [⟨(pyMod (st.index + (R : Int) + 1) cfg.n).toNat,
         rgbPath cfg ((pyMod (st.index + (R : Int) + 1) cfg.n).toNat), Kind.rgb⟩,
        ⟨(pyMod (st.index + (R : Int) + 1) cfg.n).toNat,
         irPath cfg ((pyMod (st.index + (R : Int) + 1) cfg.n).toNat), Kind.ir⟩]) ∧
    ((stepLeft cfg R st).1.index = pyMod (st.index - 1) cfg.n ∧
     (stepLeft cfg R st).2 =
       [⟨(pyMod (st.index - (R : Int) - 1) cfg.n).toNat,
         rgbPath cfg ((pyMod (st.index - (R : Int) - 1) cfg.n).toNat), Kind.rgb⟩,
        ⟨(pyMod (st.index - (R : Int) - 1) cfg.n).toNat,
         irPath cfg ((pyMod (st.index - (R : Int) - 1) cfg.n).toNat), Kind.ir⟩]) := by
  have hr : pyMod (pyMod (st.index + 1) cfg.n + (R : Int)) cfg.n
      = pyMod (st.index + (R : Int) + 1) cfg.n := by
    rw [pyMod_add_shift]
    ring_nf
  have hl : pyMod (pyMod (st.index - 1) cfg.n - (R : Int)) cfg.n
      = pyMod (st.index - (R : Int) - 1) cfg.n := by
    rw [pyMod_sub_shift]
    ring_nf
  refine ⟨⟨rfl, ?_⟩, ⟨rfl, ?_⟩⟩
  · simp only [stepRight, hr]
  · simp only [stepLeft, hl]

/-- Counterexample to C3 as stated: at a concrete state the step enqueues no
scalar (tiff) task at all, so it does not enqueue one task per each of the
three kinds. -/
theorem step_enqueues_no_scalar_task :
    ((stepRight (cfgN 20) 7 stScene).2.filter (fun t => t.kind = Kind.tiff)) = [] := by
  decide

/-- C6: restoring a state file whose recorded sequence length differs from
the active sequence's length fails with the mismatch report and leaves the
whole state — viewing index, label vector, cache — unchanged, enqueuing
nothing. -/
theorem restore_mismatch_leaves_state_unchanged {α γ : Type} (cfg : Config) (R : Nat)
    (st : AppState α γ) (lines : List PyStr) (m : Int)
    (h1 : pyInt? (readLine lines 0) = some m) (h2 : m ≠ (cfg.n : Int)) :
    loadStateHandler cfg R st lines = ⟨st, [], Outcome.mismatch⟩ := by
  unfold loadStateHandler
  rw [h1]
  simp [h2]

/-- Witness for C6 at a concrete mismatching file. -/
theorem restore_mismatch_witness :
    pyInt? (readLine ["5\n".data] 0) = some 5 ∧ (5 : Int) ≠ (((cfgN 2).n : Nat) : Int) ∧
    loadStateHandler (cfgN 2) 7 stTwo ["5\n".data] = ⟨stTwo, [], Outcome.mismatch⟩ :=
  ⟨by decide, by decide,
   restore_mismatch_leaves_state_unchanged (cfgN 2) 7 stTwo ["5\n".data] 5
     (by decide) (by decide)⟩

/-- C10: the Go To handler calls `int` on the raw dialog result before the
range test, so a cancelled dialog (`None`) or a non-integer string raises an
exception that escapes the handler with nothing mutated and nothing
enqueued, whereas an out-of-range integer target gets the range-error
report. -/
theorem goto_parse_exception_before_validation {α γ : Type} (cfg : Config) (R : Nat)
    (st : AppState α γ) (s : PyStr) (t : Int) :
    (gotoHandler cfg R st none = ⟨st, [], Outcome.exn⟩) ∧
    (pyInt? s = none → gotoHandler cfg R st (some s) = ⟨st, [], Outcome.exn⟩) ∧
    (pyInt? s = some t → ¬(0 < t ∧ t < (cfg.n : Int) + 1) →
      gotoHandler cfg R st (some s) = ⟨st, [], Outcome.rangeError⟩) := by
  refine ⟨rfl, ?_, ?_⟩
  · intro h
    simp [gotoHandler, h]
  · intro h hrange
    simp [gotoHandler, h, hrange]

/-- Witness for C10 at the concrete non-integer input `abc`. -/
theorem goto_parse_exception_witness :
    pyInt? ("abc".data) = none ∧
    gotoHandler (cfgN 20) 7 stScene (some ("abc".data)) = ⟨stScene, [], Outcome.exn⟩ :=
  ⟨by decide,
   (goto_parse_exception_before_validation (cfgN 20) 7 stScene ("abc".data) 0).2.1 (by decide)⟩

/-- C2 (code evaluated at the failing input): `img_loader` has no exception
handling, so a task whose decode fails makes the worker crash — the run ends
in `crashed`, the remaining queue items are left unprocessed by this worker,
and no `task_done` is recorded for the failing task (so a pending `q.join()`
would block). -/
theorem decode_failure_crashes_worker :
    imgLoaderRun (fun _ => (none : Option Nat)) (fun _ => (none : Option Nat))
      [some ⟨0, rgbPath (cfgN 20) 0, Kind.rgb⟩, none] ⟨[], [], []⟩ 0
      = RunOutcome.crashed ⟨[], [], []⟩ 0 ⟨0, rgbPath (cfgN 20) 0, Kind.rgb⟩ [none] := by
  decide

/-- C4 (amended): restore validates the sequence length first; an
unparsable integer field raises an exception that leaves all state
unchanged, a sequence-length mismatch is reported with all state unchanged,
but a label-line length mismatch is reported only after the viewing index
has already been overwritten with the file's index — only the label vector
and the cache survive that failure unchanged, so restore is not atomic. -/
theorem restore_failure_behavior {α γ : Type} (cfg : Config) (R : Nat) (st : AppState α γ)
    (lines : List PyStr) (m j : Int) :
    (pyInt? (readLine lines 0) = none →
      loadStateHandler cfg R st lines = ⟨st, [], Outcome.exn⟩) ∧
    (pyInt? (readLine lines 0) = some m → m ≠ (cfg.n : Int) →
      loadStateHandler cfg R st lines = ⟨st, [], Outcome.mismatch⟩) ∧
    (pyInt? (readLine lines 0) = some ((cfg.n : Nat) : Int) →
      pyInt? (readLine lines 1) = none →
      loadStateHandler cfg R st lines = ⟨st, [], Outcome.exn⟩) ∧
    (pyInt? (readLine lines 0) = some ((cfg.n : Nat) : Int) →
      pyInt? (readLine lines 1) = some j →
      (parseEntries (splitComma (pySurgery (readLine lines 2)))).length ≠ st.labels.length →
      loadStateHandler cfg R st lines = ⟨{ st with index := j }, [], Outcome.badLength⟩) := by
  refine ⟨?_, ?_, ?_, ?_⟩
  · intro h0
    simp [loadStateHandler, h0]
  · intro h0 hm
    simp [loadStateHandler, h0, hm]
  · intro h0 h1
    simp [loadStateHandler, h0, h1]
  · intro h0 h1 hlen
    simp [loadStateHandler, h0, h1, hlen]

/-- Witness for C4 at the concrete short-label-line file. -/
theorem restore_failure_behavior_witness :
    pyInt? (readLine linesShort 0) = some (((cfgN 2).n : Nat) : Int) ∧
    pyInt? (readLine linesShort 1) = some 1 ∧
    (parseEntries (splitComma (pySurgery (readLine linesShort 2)))).length ≠
      stTwo.labels.length ∧
    loadStateHandler (cfgN 2) 7 stTwo linesShort =
      ⟨{ stTwo with index := 1 }, [], Outcome.badLength⟩ :=
  ⟨by decide, by decide, by decide,
   (restore_failure_behavior (cfgN 2) 7 stTwo linesShort 0 1).2.2.2
     (by decide) (by decide) (by decide)⟩

/-- Counterexample to C4 as stated: a state file with the correct sequence
length but a too-short label line makes the restore fail, yet the viewing
index has been mutated from 0 to the file's value 1, so the failed restore
did not leave all state unchanged. -/
theorem restore_badLength_mutates_index :
    (loadStateHandler (cfgN 2) 7 stTwo linesShort).outcome = Outcome.badLength ∧
    stTwo.index = 0 ∧
    (loadStateHandler (cfgN 2) 7 stTwo linesShort).st.index = 1 := by
  decide

/-- C1 (amended): after a reconciliation tick with no pending results, the
invariant holds for the visual and thermal kinds — every slot at circular
distance greater than R from the viewing index is empty, and every non-empty
slot is within distance R.  (The scalar-stats array has no eviction scan, so
the claim fails for it; see the counterexample.) -/
theorem reconcile_invariant_visual_thermal {α γ : Type} (cfg : Config) (R : Nat)
    (st : AppState α γ) (s : Nat)
    (hR : st.bRgb = []) (hI : st.bIr = []) (_hT : st.bTiff = []) :
    (circDist cfg.n (reconcileTick cfg R st).index (s : Int) > (R : Int) →
       slotVal (reconcileTick cfg R st).loadedRgb s = none ∧
       slotVal (reconcileTick cfg R st).loadedIr s = none) ∧
    (slotVal (reconcileTick cfg R st).loadedRgb s ≠ none →
       circDist cfg.n (reconcileTick cfg R st).index (s : Int) ≤ (R : Int)) ∧
    (slotVal (reconcileTick cfg R st).loadedIr s ≠ none →
       circDist cfg.n (reconcileTick cfg R st).index (s : Int) ≤ (R : Int)) := by
  have hidx : (reconcileTick cfg R st).index = st.index := by
    simp [reconcileTick]
  have hrgb : (reconcileTick cfg R st).loadedRgb = evictPass cfg.n R st.index st.loadedRgb := by
    simp [reconcileTick, hR, drainSkip, placeAll]
  have hir : (reconcileTick cfg R st).loadedIr = evictPass cfg.n R st.index st.loadedIr := by
    simp [reconcileTick, hI, drainSkip, placeAll]
  rw [hidx, hrgb, hir]
  exact ⟨fun hfar => ⟨slotVal_evictPass_of_far _ _ _ _ _ hfar,
                     slotVal_evictPass_of_far _ _ _ _ _ hfar⟩,
         fun hne => slotVal_evictPass_near_of_ne_none _ _ _ _ _ hne,
         fun hne => slotVal_evictPass_near_of_ne_none _ _ _ _ _ hne⟩

/-- Witness for C1 at a concrete state and slot. -/
theorem reconcile_invariant_visual_thermal_witness :
    circDist (cfgN 20).n (reconcileTick (cfgN 20) 7 stTiffStale).index (18 : Int) > (7 : Int) ∧
    slotVal (reconcileTick (cfgN 20) 7 stTiffStale).loadedRgb 18 = none :=
  ⟨by decide,
   ((reconcile_invariant_visual_thermal (cfgN 20) 7 stTiffStale 18 rfl rfl rfl).1
     (by decide)).1⟩

/-- Counterexample to C1 as stated: with no pending results, reconciliation
leaves a scalar-stats (tiff) payload cached at circular distance 9 > R = 7
from the viewing index — the invariant does not hold for the scalar-stats
kind because `loaded_tiff_vals` has no eviction scan. -/
theorem reconcile_keeps_stale_scalar_slot :
    stTiffStale.bRgb = [] ∧ stTiffStale.bIr = [] ∧ stTiffStale.bTiff = [] ∧
    circDist (cfgN 20).n (reconcileTick (cfgN 20) 7 stTiffStale).index (19 : Int) > (7 : Int) ∧
    slotVal (reconcileTick (cfgN 20) 7 stTiffStale).loadedTiff 19 = some 5 := by
  decide

/-- C7 (amended): in the concrete scenario N = 20, R = 7, initial index 0,
the initial enqueue covers the window `{13..19, 0..7}` — 15 positions per
kind, for the visual and thermal kinds only (the scalar preload is commented
out); `Step(+1)` moves to index 1 and enqueues exactly one visual and one
thermal task for index 8 = (0 + 7 + 1) mod 20; and after the step's results
arrive and a reconciliation runs, slot 13 (the old trailing edge, now at
distance 8) is evicted while slot 8 holds the drained payloads. -/
theorem scene_n20_r7_step_and_reconcile :
    ((initialTasks (cfgN 20) 7 0).filter (fun t => t.kind = Kind.rgb)).map LoadTask.index =
      [13, 14, 15, 16, 17, 18, 19, 0, 1, 2, 3, 4, 5, 6, 7] ∧
    ((initialTasks (cfgN 20) 7 0).filter (fun t => t.kind = Kind.ir)).map LoadTask.index =
      [13, 14, 15, 16, 17, 18, 19, 0, 1, 2, 3, 4, 5, 6, 7] ∧
    ((initialTasks (cfgN 20) 7 0).filter (fun t => t.kind = Kind.tiff)) = [] ∧
    stSceneStepped.index = 1 ∧
    ((stepRight (cfgN 20) 7 stScene).2.map LoadTask.index = [8, 8] ∧
     (stepRight (cfgN 20) 7 stScene).2.map LoadTask.kind = [Kind.rgb, Kind.ir]) ∧
    slotVal stSceneArrived.loadedRgb 13 = some 13 ∧
    slotVal (reconcileTick (cfgN 20) 7 stSceneArrived).loadedRgb 13 = none ∧
    slotVal (reconcileTick (cfgN 20) 7 stSceneArrived).loadedIr 13 = none ∧
    slotVal (reconcileTick (cfgN 20) 7 stSceneArrived).loadedRgb 8 = some 100 ∧
    slotVal (reconcileTick (cfgN 20) 7 stSceneArrived).loadedIr 8 = some 200 := by
  decide

/-- Counterexample to C7 as stated: the step from index 0 enqueues no task
for index 9 — the formula (0 + 7 + 1) mod 20 evaluates to 8, not 9 — and the
initial window has 15 slots per enqueued kind, not 14. -/
theorem scene_step_targets_eight_not_nine :
    ((stepRight (cfgN 20) 7 stScene).2.filter (fun t => t.index = 9)) = [] ∧
    pyMod ((0 : Int) + 7 + 1) 20 = 8 ∧
    ((initialTasks (cfgN 20) 7 0).filter (fun t => t.kind = Kind.rgb)).length = 15 := by
  decide

theorem filter_flatMap_length_const {σ τ : Type} (xs : List σ) (f : σ → List τ)
    (p : τ → Bool) (c : Nat) (h : ∀ x, ((f x).filter p).length = c) :
    ((xs.flatMap f).filter p).length = xs.length * c := by
  induction xs with
  | nil => simp
  | cons x xs ih =>
    rw [List.flatMap_cons, List.filter_append, List.length_append, ih, h]
    simp [Nat.succ_mul, Nat.add_comm]

theorem windowTasks_count_per_kind (cfg : Config) (R : Nat) (idx : Int) (k : Kind) :
    ((windowTasks cfg R idx true).filter (fun tk => tk.kind = k)).length = 2 * R + 1 := by
  unfold windowTasks
  rw [filter_flatMap_length_const _ _ _ 1, List.length_range, Nat.mul_one]
  intro j
  cases k <;> simp

theorem windowTasks_index_mem (cfg : Config) (R : Nat) (idx : Int) (b : Bool)
    (tk : LoadTask) (h : tk ∈ windowTasks cfg R idx b) :
    ∃ j < 2 * R + 1, tk.index = (pyMod (idx + (j : Int) - (R : Int)) cfg.n).toNat := by
  unfold windowTasks at h
  rw [List.mem_flatMap] at h
  obtain ⟨j, hj, htk⟩ := h
  refine ⟨j, List.mem_range.mp hj, ?_⟩
  cases b with
  | false =>
    simp at htk
    rcases htk with rfl | rfl <;> rfl
  | true =>
    simp at htk
    rcases htk with rfl | rfl | rfl <;> rfl

/-- C5 (amended): the Go To handler validates the (already integer) target
against [1, N] before any transition — out of range leaves everything
unchanged with a validation report; a valid target sets the index to
`target - 1`, immediately (before any reconciliation tick) evicts every
visual and thermal slot outside the new window, leaves the scalar-stats
array untouched (it has no eviction loop), keeps the labels, and enqueues a
full window of exactly 2R+1 tasks per kind — visual, thermal and scalar —
all targeting positions `(target - 1 + i) mod N` for `i` in `[-R, R]`. -/
theorem goto_valid_target_behavior {α γ : Type} (cfg : Config) (R : Nat)
    (st : AppState α γ) (s : PyStr) (t : Int) (hp : pyInt? s = some t) :
    (¬(0 < t ∧ t < (cfg.n : Int) + 1) →
       gotoHandler cfg R st (some s) = ⟨st, [], Outcome.rangeError⟩) ∧
    ((0 < t ∧ t < (cfg.n : Int) + 1) →
       (gotoHandler cfg R st (some s)).outcome = Outcome.ok ∧
       (gotoHandler cfg R st (some s)).st.index = t - 1 ∧
       (gotoHandler cfg R st (some s)).st.labels = st.labels ∧
       (gotoHandler cfg R st (some s)).st.loadedTiff = st.loadedTiff ∧
       (∀ sx : Nat, circDist cfg.n (t - 1) (sx : Int) > (R : Int) →
          slotVal (gotoHandler cfg R st (some s)).st.loadedRgb sx = none ∧
          slotVal (gotoHandler cfg R st (some s)).st.loadedIr sx = none) ∧
       (∀ k : Kind,
          ((gotoHandler cfg R st (some s)).enq.filter (fun tk => tk.kind = k)).length
            = 2 * R + 1) ∧
       (∀ tk ∈ (gotoHandler cfg R st (some s)).enq, ∃ j < 2 * R + 1,
          tk.index = (pyMod ((t - 1) + (j : Int) - (R : Int)) cfg.n).toNat)) := by
  constructor
  · intro hrange
    simp [gotoHandler, hp, hrange]
  · intro hrange
    have hout : gotoHandler cfg R st (some s) =
        ⟨{ st with
            index := t - 1
            loadedRgb := evictPass cfg.n R (t - 1) st.loadedRgb
            loadedIr := evictPass cfg.n R (t - 1) st.loadedIr },
         windowTasks cfg R (t - 1) true, Outcome.ok⟩ := by
      simp [gotoHandler, hp, hrange]
    rw [hout]
    refine ⟨rfl, rfl, rfl, rfl, ?_, ?_, ?_⟩
    · intro sx hfar
      exact ⟨slotVal_evictPass_of_far _ _ _ _ _ hfar,
             slotVal_evictPass_of_far _ _ _ _ _ hfar⟩
    · intro k
      exact windowTasks_count_per_kind cfg R (t - 1) k
    · intro tk htk
      exact windowTasks_index_mem cfg R (t - 1) true tk htk

/-- Witness for C5 at the concrete valid target 9 (N = 20). -/
theorem goto_valid_target_behavior_witness :
    pyInt? ("9".data) = some 9 ∧
    (0 : Int) < 9 ∧ (9 : Int) < ((cfgN 20).n : Int) + 1 ∧
    (gotoHandler (cfgN 20) 7 stGotoTiff (some ("9".data))).outcome = Outcome.ok ∧
    (gotoHandler (cfgN 20) 7 stGotoTiff (some ("9".data))).st.index = 9 - 1 :=
  ⟨by decide, by decide, by decide,
   ((goto_valid_target_behavior (cfgN 20) 7 stGotoTiff ("9".data) 9 (by decide)).2
     (by decide)).1,
   ((goto_valid_target_behavior (cfgN 20) 7 stGotoTiff ("9".data) 9 (by decide)).2
     (by decide)).2.1⟩

/-- Counterexample to C5 as stated: a successful jump from index 19 to
target 9 (new index 8) leaves the scalar-stats payload cached at slot 19
(circular distance 9 > R = 7 from the new index) — the jump does not evict
every cached slot outside the new window. -/
theorem goto_does_not_evict_stale_scalar_slot :
    (gotoHandler (cfgN 20) 7 stGotoTiff (some ("9".data))).outcome = Outcome.ok ∧
    (gotoHandler (cfgN 20) 7 stGotoTiff (some ("9".data))).st.index = 8 ∧
    circDist (cfgN 20).n 8 19 > 7 ∧
    slotVal (gotoHandler (cfgN 20) 7 stGotoTiff (some ("9".data))).st.loadedTiff 19
      = some 5 := by
  decide

theorem pushResult_isSome {α γ : Type} (dI : PyStr → Option α) (dT : PyStr → Option γ)
    (s : Stacks α γ) (t : LoadTask) :
    (pushResult dI dT s t).isSome = decodes dI dT t := by
  cases t with
  | mk i p k => cases k <;> simp [pushResult, decodes]

theorem poolDrain_sentinels {α γ : Type} (dI : PyStr → Option α) (dT : PyStr → Option γ)
    (k : Nat) (s : Stacks α γ) :
    poolDrain dI dT (List.replicate k none) k s = (s, 0, []) := by
  induction k with
  | zero => rfl
  | succ k ih => simpa [List.replicate_succ, poolDrain] using ih

/-- C8: stopping a pool of k > 0 workers appends exactly one termination
sentinel per worker after the pending tasks; draining the FIFO queue then
processes every pending task (each decoding successfully) before any
sentinel is reached, pushes every result, consumes all k sentinels — each
terminating exactly one worker — and ends with zero workers alive and an
empty queue, so the joins in `stop_workers` return and no task is
dropped. -/
theorem stop_workers_drains_all_then_joins {α γ : Type} (dI : PyStr → Option α)
    (dT : PyStr → Option γ) (tasks : List LoadTask) (k : Nat) (s : Stacks α γ)
    (hk : 0 < k) (hdec : ∀ t ∈ tasks, decodes dI dT t = true) :
    poolDrain dI dT (stopQueue (tasks.map some) k) k s =
      (tasks.foldl (fun acc t => (pushResult dI dT acc t).getD acc) s, 0, []) := by
  induction tasks generalizing s with
  | nil => simpa [stopQueue] using poolDrain_sentinels dI dT k s
  | cons t rest ih =>
    have hd : decodes dI dT t = true := hdec t (by simp)
    have hsome : (pushResult dI dT s t).isSome = true := by
      rw [pushResult_isSome]; exact hd
    obtain ⟨s2, hs2⟩ := Option.isSome_iff_exists.mp hsome
    obtain ⟨k', rfl⟩ : ∃ k', k = k' + 1 := ⟨k - 1, by omega⟩
    have hstep : stopQueue ((t :: rest).map some) (k' + 1)
        = some t :: stopQueue (rest.map some) (k' + 1) := by
      simp [stopQueue]
    rw [hstep]
    have hrec : poolDrain dI dT (some t :: stopQueue (rest.map some) (k' + 1)) (k' + 1) s
        = poolDrain dI dT (stopQueue (rest.map some) (k' + 1)) (k' + 1) s2 := by
      simp [poolDrain, hs2]
    rw [hrec, ih s2 (fun x hx => hdec x (by simp [hx]))]
    simp [hs2]

/-- Witness for C8: 10 workers, 3 pending tasks, all decodable — all three
results are pushed, all ten workers exit, the queue ends empty. -/
theorem stop_workers_drains_witness :
    (0 : Nat) < 10 ∧
    (∀ t ∈ tasks3,
       decodes (fun _ => (some 1 : Option Nat)) (fun _ => (some 7 : Option Nat)) t = true) ∧
    poolDrain (fun _ => (some 1 : Option Nat)) (fun _ => (some 7 : Option Nat))
        (stopQueue (tasks3.map some) 10) 10 ⟨[], [], []⟩ =
      (tasks3.foldl
        (fun acc t =>
          (pushResult (fun _ => (some 1 : Option Nat)) (fun _ => (some 7 : Option Nat))
            acc t).getD acc) ⟨[], [], []⟩, 0, []) :=
  ⟨by decide, by decide,
   stop_workers_drains_all_then_joins _ _ tasks3 10 ⟨[], [], []⟩ (by decide) (by decide)⟩

theorem digitCh_toNat_sub : ∀ d < 10, (digitCh d).toNat - 48 = d := by decide

theorem digitCh_isDigit : ∀ d < 10, (digitCh d).isDigit = true := by decide

theorem foldl_decStep_eq (l : List Nat) (h : ∀ d ∈ l, d < 10) :
    ∀ a : Nat, l.foldl (fun x d => 10 * x + ((digitCh d).toNat - 48)) a
      = l.foldl (fun x d => 10 * x + d) a := by
  induction l with
  | nil => intro a; rfl
  | cons d l ih =>
    intro a
    rw [List.foldl_cons, List.foldl_cons, digitCh_toNat_sub d (h d (by simp)),
      ih (fun x hx => h x (by simp [hx]))]

theorem foldl_dec_reverse (l : List Nat) :
    ∀ a : Nat, (l.reverse).foldl (fun x d => 10 * x + d) a
      = a * 10 ^ l.length + Nat.ofDigits 10 l := by
  induction l with
  | nil => intro a; simp
  | cons d l ih =>
    intro a
    rw [List.reverse_cons, List.foldl_append, ih a, List.foldl_cons, List.foldl_nil,
      Nat.ofDigits_cons, List.length_cons]
    ring

theorem decVal_natChars (n : Nat) : decVal (natChars n) = n := by
  by_cases h0 : n = 0
  · subst h0; decide
  · have hd : ∀ d ∈ (Nat.digits 10 n).reverse, d < 10 := fun d hdm =>
      Nat.digits_lt_base (by norm_num) (List.mem_reverse.mp hdm)
    unfold natChars decVal
    rw [if_neg h0, ← List.map_reverse, List.foldl_map, foldl_decStep_eq _ hd 0,
      foldl_dec_reverse (Nat.digits 10 n) 0]
    simp [Nat.ofDigits_digits]

theorem natChars_ne_nil (n : Nat) : natChars n ≠ [] := by
  unfold natChars
  split
  · simp
  · next h0 =>
    simp only [ne_eq, List.reverse_eq_nil_iff, List.map_eq_nil_iff]
    exact Nat.digits_ne_nil_iff_ne_zero.mpr h0

theorem natChars_all_digits (n : Nat) : ∀ c ∈ natChars n, c.isDigit = true := by
  intro c hc
  unfold natChars at hc
  split at hc
  · simp at hc; subst hc; decide
  · rw [List.mem_reverse] at hc
    obtain ⟨d, hdm, rfl⟩ := List.mem_map.mp hc
    exact digitCh_isDigit d (Nat.digits_lt_base (by norm_num) hdm)

theorem digit_not_ws (c : Char) (h : c.isDigit = true) : isWsC c = false := by
  unfold isWsC
  simp only [Bool.or_eq_false_iff, decide_eq_false_iff_not]
  refine ⟨⟨⟨?_, ?_⟩, ?_⟩, ?_⟩ <;> rintro rfl <;> exact absurd h (by decide)

theorem dropWhile_eq_self_of_not (p : Char → Bool) (l : PyStr) (h : ∀ c ∈ l, p c = false) :
    l.dropWhile p = l := by
  cases l with
  | nil => rfl
  | cons c rest =>
    rw [List.dropWhile_cons, h c (by simp)]
    simp

theorem stripWs_append_newline (s : PyStr) (h : ∀ c ∈ s, isWsC c = false) :
    stripWs (s ++ ['\n']) = s := by
  unfold stripWs
  cases s with
  | nil => decide
  | cons c rest =>
    have h1 : ((c :: rest) ++ ['\n']).dropWhile isWsC = (c :: rest) ++ ['\n'] := by
      rw [List.cons_append, List.dropWhile_cons, h c (by simp)]
      simp
    have h2 : ((c :: rest) ++ ['\n']).reverse = '\n' :: (c :: rest).reverse := by
      rw [List.reverse_append]
      rfl
    rw [h1, h2, List.dropWhile_cons]
    simp only [show isWsC '\n' = true from rfl, if_true]
    rw [dropWhile_eq_self_of_not isWsC ((c :: rest).reverse)
        (fun x hx => h x (List.mem_reverse.mp hx)),
      List.reverse_reverse]

theorem pyInt?_intChars_newline (i : Int) : pyInt? (intChars i ++ ['\n']) = some i := by
  have hnws : ∀ c ∈ intChars i, isWsC c = false := by
    intro c hc
    unfold intChars at hc
    split at hc
    · rcases List.mem_cons.mp hc with rfl | hc2
      · decide
      · exact digit_not_ws c (natChars_all_digits _ c hc2)
    · exact digit_not_ws c (natChars_all_digits _ c hc)
  have hstrip : stripWs (intChars i ++ ['\n']) = intChars i :=
    stripWs_append_newline _ hnws
  obtain ⟨c0, ds, hsh⟩ : ∃ c0 ds, natChars (i.natAbs) = c0 :: ds := by
    rcases List.exists_cons_of_ne_nil (natChars_ne_nil (i.natAbs)) with ⟨c0, ds, hsh⟩
    exact ⟨c0, ds, hsh⟩
  have hc0d : c0.isDigit = true := natChars_all_digits _ c0 (by rw [hsh]; simp)
  have hdsd : ds.all Char.isDigit = true := by
    rw [List.all_eq_true]
    intro x hx
    exact natChars_all_digits _ x (by rw [hsh]; simp [hx])
  have hc0m : ¬(c0 = '-') := by
    rintro rfl
    exact absurd hc0d (by decide)
  have hc0p : ¬(c0 = '+') := by
    rintro rfl
    exact absurd hc0d (by decide)
  have hdv : decVal (c0 :: ds) = i.natAbs := by
    rw [← hsh, decVal_natChars]
  by_cases hneg : i < 0
  · have habs : (-i).toNat = i.natAbs := by omega
    have hic : intChars i = '-' :: natChars (i.natAbs) := by
      unfold intChars
      rw [if_pos hneg, habs]
    have hs2 : stripWs (intChars i ++ ['\n']) = '-' :: c0 :: ds := by
      rw [hstrip, hic, hsh]
    have hdv2 : ((decVal (c0 :: ds) : Nat) : Int) = -i := by
      rw [hdv, Int.natCast_natAbs, abs_of_neg hneg]
    simp [pyInt?, hs2, List.all_cons, hc0d, hdsd, hdv2]
  · have habs : i.toNat = i.natAbs := by omega
    have hic : intChars i = natChars (i.natAbs) := by
      unfold intChars
      rw [if_neg hneg, habs]
    have hs2 : stripWs (intChars i ++ ['\n']) = c0 :: ds := by
      rw [hstrip, hic, hsh]
    have hdv2 : ((decVal (c0 :: ds) : Nat) : Int) = i := by
      rw [hdv, Int.natCast_natAbs, abs_of_nonneg (not_lt.mp hneg)]
    simp [pyInt?, hs2, List.all_cons, hc0d, hdsd, hdv2, hc0m, hc0p]

theorem filter_labelTok (l : Label) :
    ((labelTok l).filter (fun c => c ≠ ' ')).filter (fun c => c ≠ quoteCh) = labelTokS l := by
  cases l <;> decide

theorem labelTokS_no_comma (l : Label) : ∀ c ∈ labelTokS l, c ≠ ',' := by
  cases l <;> decide

theorem filter_joinSep (p : Char → Bool) (sep : PyStr) :
    ∀ xs : List PyStr, (joinSep sep xs).filter p
      = joinSep (sep.filter p) (xs.map (fun x => x.filter p)) := by
  intro xs
  induction xs with
  | nil => simp [joinSep]
  | cons x xs ih =>
    cases xs with
    | nil => simp [joinSep]
    | cons y rest =>
      simp only [joinSep, List.map_cons, List.filter_append] at ih ⊢
      rw [ih]

theorem dropLast_pair (xs : List Char) (a b : Char) :
    ((xs ++ [a, b]).dropLast).dropLast = xs := by
  have h : xs ++ [a, b] = (xs ++ [a]) ++ [b] := by simp
  rw [h, List.dropLast_concat, List.dropLast_concat]

theorem pySurgery_pyRepr (ls : List Label) :
    pySurgery (pyReprLabels ls ++ ['\n']) = joinSep [','] (ls.map labelTokS) := by
  have hline : pyReprLabels ls ++ ['\n']
      = '[' :: ((joinSep (", ".data) (ls.map labelTok)) ++ [']', '\n']) := by
    simp [pyReprLabels]
  have hfilt : ∀ (p : Char → Bool), p '[' = true → p ']' = true → p '\n' = true →
      ∀ J : PyStr, ('[' :: (J ++ [']', '\n'])).filter p
        = '[' :: (J.filter p ++ [']', '\n']) := by
    intro p h1 h2 h3 J
    simp [List.filter_cons, List.filter_append, h1, h2, h3]
  unfold pySurgery
  rw [hline, hfilt _ (by decide) (by decide) (by decide),
    hfilt _ (by decide) (by decide) (by decide)]
  simp only [List.drop_succ_cons, List.drop_zero]
  rw [dropLast_pair, filter_joinSep, filter_joinSep]
  have hsep : (((", ".data).filter (fun c => c ≠ ' ')).filter (fun c => c ≠ quoteCh))
      = [','] := by decide
  rw [hsep, List.map_map, List.map_map]
  simp only [Function.comp_def, filter_labelTok]

theorem splitComma_no_comma (x : PyStr) (h : ∀ c ∈ x, c ≠ ',') : splitComma x = [x] := by
  induction x with
  | nil => rfl
  | cons c rest ih =>
    rw [splitComma, if_neg (h c (by simp)), ih (fun d hd => h d (by simp [hd]))]

theorem splitComma_append_comma (x t : PyStr) (h : ∀ c ∈ x, c ≠ ',') :
    splitComma (x ++ ',' :: t) = x :: splitComma t := by
  induction x with
  | nil =>
    rw [List.nil_append, splitComma, if_pos rfl]
  | cons c rest ih =>
    rw [List.cons_append, splitComma, if_neg (h c (by simp)),
      ih (fun d hd => h d (by simp [hd]))]

theorem splitComma_joinSep (xs : List PyStr) (hne : xs ≠ [])
    (h : ∀ x ∈ xs, ∀ c ∈ x, c ≠ ',') :
    splitComma (joinSep [','] xs) = xs := by
  induction xs with
  | nil => exact absurd rfl hne
  | cons x xs ih =>
    cases xs with
    | nil => exact splitComma_no_comma x (h x (by simp))
    | cons y rest =>
      rw [joinSep,
        show x ++ [','] ++ joinSep [','] (y :: rest) = x ++ ',' :: joinSep [','] (y :: rest)
          from by simp,
        splitComma_append_comma _ _ (h x (by simp)),
        ih (by simp) (fun z hz => h z (by simp [hz]))]

theorem matchEntry_labelTokS (l : Label) : matchEntry (labelTokS l) = some l := by
  cases l <;> decide

theorem parseEntries_labelTokS (ls : List Label) :
    parseEntries (ls.map labelTokS) = ls := by
  induction ls with
  | nil => rfl
  | cons l ls ih =>
    rw [List.map_cons, parseEntries, matchEntry_labelTokS, ih]

/-- C9: loading a state file immediately after Save State produced it, with
the same sequence active, succeeds — the sequence-length line matches, the
index line parses back to the saved viewing index, and the label line
survives the text surgery (space stripping turns the written quoted
`No Fire` into `NoFire`, which the entry match maps back), restoring a label
vector and viewing index equal to the saved ones. -/
theorem save_load_round_trip {α γ : Type} (cfg : Config) (R : Nat) (st : AppState α γ) :
    (loadStateHandler cfg R st (saveState cfg st)).outcome = Outcome.ok ∧
    (loadStateHandler cfg R st (saveState cfg st)).st.index = st.index ∧
    (loadStateHandler cfg R st (saveState cfg st)).st.labels = st.labels := by
  have h0 : pyInt? (readLine (saveState cfg st) 0) = some ((cfg.n : Nat) : Int) :=
    pyInt?_intChars_newline ((cfg.n : Nat) : Int)
  have h1 : pyInt? (readLine (saveState cfg st) 1) = some st.index :=
    pyInt?_intChars_newline st.index
  have h2 : parseEntries (splitComma (pySurgery (readLine (saveState cfg st) 2)))
      = st.labels := by
    have hsur : pySurgery (readLine (saveState cfg st) 2)
        = joinSep [','] (st.labels.map labelTokS) := pySurgery_pyRepr st.labels
    rw [hsur]
    cases hls : st.labels with
    | nil => rfl
    | cons l ls =>
      rw [splitComma_joinSep _ (by simp) (fun x hx => by
        obtain ⟨lab, _, rfl⟩ := List.mem_map.mp hx
        exact labelTokS_no_comma lab),
        parseEntries_labelTokS]
  have hout : loadStateHandler cfg R st (saveState cfg st) =
      ⟨{ st with
          index := st.index
          labels := st.labels
          loadedRgb := evictPass cfg.n R st.index st.loadedRgb
          loadedIr := evictPass cfg.n R st.index st.loadedIr },
       windowTasks cfg R st.index true, Outcome.ok⟩ := by
    simp [loadStateHandler, h0, h1, h2]
  rw [hout]
  exact ⟨rfl, rfl, rfl⟩

end Flame
